import Mathlib

/-!
Verification development for the ohh-brother repository: a menu-bar
meeting-transcription app whose Controller (Electron main process)
supervises a spawned Engine ("transcriber.py") over a newline-delimited
JSON message channel.

This file gives a shallow embedding of the Controller-side supervisor
(`PythonProcess`, in src/electron/python-process.ts), the coordinator
(`OhhBrotherApp.startRecording` / `stopRecording`, in src/electron/main.ts)
and the transcript history lister (`HistoryManager`, in
src/electron/history.ts), and proves theorems about the embedded
definitions.

Modelling conventions:
- File-system and OS interaction is made explicit: the marker (pid) file
  content is part of the supervisor state; the set of live pids is a
  predicate `alive : Nat -> Bool`; every externally visible action
  (signals, spawns, stdin writes, callback invocations, console output,
  file operations) is recorded in an ordered `Effect` trace.
- `JSON.stringify` / `JSON.parse` are JavaScript platform builtins, not
  repository code; they are abstracted as `encode` / `decode` function
  parameters.
- Node `ChildProcess` handles are modelled by their pid plus the presence
  of the stdio pipes (`spawn` is called with stdio pipes for all three).
-/

namespace OhhBrother

/-- An inbound Engine→Controller message (`PythonMessage` in
python-process.ts): a `type` tag plus arbitrary further fields, which are
abstracted as key/value pairs. -/
structure PythonMessage where
  type : String
  fields : List (String × String)
deriving DecidableEq

/-- An outbound Controller→Engine command object; every call site passes
an object of the shape `\x7b command: "..." \x7d`. -/
structure Command where
  command : String
deriving DecidableEq

/-- The handle for a spawned Engine process (Node `ChildProcess`).
`pid = 0` models a spawn whose `pid` is `undefined` (spawn failure).
The stdio flags record whether the corresponding pipe exists; `spawn` is
always called with `stdio: ["pipe", "pipe", "pipe"]`, so all are true for
handles this model creates. -/
structure ProcHandle where
  pid : Nat
  hasStdin : Bool
  hasStdout : Bool
  hasStderr : Bool
deriving DecidableEq

/-- One externally visible action of the Controller-side supervisor. -/
inductive Effect where
  /-- `process.kill(pid, "SIGTERM")` on an arbitrary pid (stale cleanup). -/
  | kill (pid : Nat) (sig : String)
  /-- `this.process.kill("SIGTERM")` on the held Engine child. -/
  | killChild (sig : String)
  /-- `fs.unlinkSync(this.pidFile)`. -/
  | unlinkPidFile
  /-- `fs.writeFileSync(this.pidFile, content)`. -/
  | writePidFile (content : String)
  /-- `spawn(exe, args, ...)`. -/
  | spawn (exe : String) (args : List String)
  /-- `this.process.stdin.write(s)`. -/
  | stdinWrite (s : String)
  /-- `console.log(...)` diagnostic output. -/
  | logInfo (s : String)
  /-- `console.error(...)` diagnostic output. -/
  | logError (s : String)
  /-- Invocation of the registered `messageCallback`. -/
  | deliverMessage (m : PythonMessage)
  /-- Invocation of the registered `errorCallback`. -/
  | deliverError (s : String)
deriving DecidableEq

/-- The mutable state of a `PythonProcess` instance together with the
content of its marker (pid) file. `pidFileContent = none` models an
absent marker file. -/
structure SupState where
  process : Option ProcHandle
  pythonDir : String
  outputDir : String
  pidFile : String
  pidFileContent : Option String
  messageCallbackSet : Bool
  errorCallbackSet : Bool
deriving DecidableEq

/-- The JavaScript `\s` whitespace class (ASCII part). -/
def isJsWhitespace (c : Char) : Bool :=
  c = ' ' || c = '\t' || c = '\n' || c = '\r' || c = '\x0b' || c = '\x0c'

/-- JavaScript `String.prototype.trim` (ASCII whitespace). -/
def trimJs (l : List Char) : List Char :=
  ((l.dropWhile isJsWhitespace).reverse.dropWhile isJsWhitespace).reverse

/-- JavaScript `parseInt(s.trim(), 10)` followed by the truthiness test
`if (pid)`: the result is the leading decimal-digit run of the trimmed
string, `none` when there is no such run (`NaN`) or it denotes zero
(both are falsy). The file is only ever written with a (positive)
`process.pid`, so signs are not modelled. -/
def parsePid (s : String) : Option Nat :=
  let digits := (trimJs s.toList).takeWhile Char.isDigit
  if digits.isEmpty then none
  else
    let n := digits.foldl (fun acc c => 10 * acc + (c.toNat - 48)) 0
    if n = 0 then none else some n

/-- `PythonProcess.removePidFile`: unlink the marker file if it exists;
errors are swallowed. -/
def removePidFile (st : SupState) : SupState × List Effect :=
  match st.pidFileContent with
  | some _ => ({ st with pidFileContent := none }, [Effect.unlinkPidFile])
  | none => (st, [])

/-- `PythonProcess.writePidFile`: persist the given pid to the marker
file (the `mkdirSync` of the parent directory is absorbed into the
file-system model). -/
def writePidFile (st : SupState) (pid : Nat) : SupState × List Effect :=
  ({ st with pidFileContent := some (toString pid) },
    [Effect.writePidFile (toString pid)])

/-- `PythonProcess.cleanupOrphanedProcess`: if the marker file exists and
parses to a truthy pid, send that pid SIGTERM (a failed signal — pid no
longer alive — throws and is swallowed by the inner catch), then unlink
the marker file; all errors are swallowed by the outer catch. -/
def cleanupOrphanedProcess (st : SupState) (alive : Nat → Bool) :
    SupState × List Effect :=
  match st.pidFileContent with
  | none => (st, [])
  | some content =>
    let killEffs :=
      match parsePid content with
      | some pid =>
        if alive pid then
          [Effect.kill pid "SIGTERM",
           Effect.logInfo ("Cleaned up orphaned Python process (PID: " ++
             toString pid ++ ")")]
        else
          [Effect.kill pid "SIGTERM"]
      | none => []
    ({ st with pidFileContent := none },
      killEffs ++ [Effect.unlinkPidFile])

/-- The `PythonProcess` constructor: record the directories, derive the
marker-file path, and run `cleanupOrphanedProcess` before anything else.
`pidFileContent` is the marker file the previous Controller instance may
have left behind; `alive` tells whether a pid still designates a live
process. -/
def construct (pythonDir outputDir : String) (pidFileContent : Option String)
    (alive : Nat → Bool) : SupState × List Effect :=
  cleanupOrphanedProcess
    { process := none
      pythonDir := pythonDir
      outputDir := outputDir
      pidFile := outputDir ++ "/.transcriber.pid"
      pidFileContent := pidFileContent
      messageCallbackSet := false
      errorCallbackSet := false }
    alive

/-- `PythonProcess.start`: no-op when a process is already held;
otherwise resolve the Engine executable (the venv python when
`venvExists`, else the global `python3`), spawn it with the output
directory as a parameter, and persist the new pid to the marker file
when the spawned pid is truthy. `newPid` is the pid the OS assigns
(0 models an `undefined` pid). -/
def start (st : SupState) (venvExists : Bool) (newPid : Nat) :
    SupState × List Effect :=
  match st.process with
  | some _ => (st, [])
  | none =>
    let venvPython := st.pythonDir ++ "/venv/bin/python"
    let pythonExe := if venvExists then venvPython else "python3"
    let scriptPath := st.pythonDir ++ "/transcriber.py"
    let spawnEff := Effect.spawn pythonExe
      [scriptPath, "--output-dir", st.outputDir]
    let handle : ProcHandle :=
      { pid := newPid, hasStdin := true, hasStdout := true, hasStderr := true }
    let st1 := { st with process := some handle }
    if newPid = 0 then (st1, [spawnEff])
    else
      let (st2, wEffs) := writePidFile st1 newPid
      (st2, spawnEff :: wEffs)

/-- `PythonProcess.send`: write one encoded line (`JSON.stringify(msg) +
"\n"`) to the Engine stdin when a process with a stdin pipe is held;
otherwise do nothing. `encode` abstracts `JSON.stringify`. -/
def send (encode : Command → String) (st : SupState) (m : Command) :
    List Effect :=
  match st.process with
  | some h => if h.hasStdin then [Effect.stdinWrite (encode m ++ "\n")] else []
  | none => []

/-- The stdout line handler installed by `start`: parse the line as JSON
(`decode` abstracts `JSON.parse`); on success deliver the message to the
registered callback, on failure log the raw line as diagnostic output. -/
def handleStdoutLine (decode : String → Option PythonMessage)
    (st : SupState) (line : String) : List Effect :=
  match decode line with
  | some m => if st.messageCallbackSet then [Effect.deliverMessage m] else []
  | none => [Effect.logInfo ("Python stdout: " ++ line)]

/-- The `exit` event handler installed by `start`: log the exit, clear
the process handle and remove the marker file. -/
def onExit (st : SupState) (code : Option Int) (signal : Option String) :
    SupState × List Effect :=
  let (st1, rmEffs) := removePidFile { st with process := none }
  (st1,
    Effect.logInfo ("Python process exited (code: " ++ toString code ++
      ", signal: " ++ toString signal ++ ")") :: rmEffs)

/-- The `error` event handler installed by `start` (spawn failure etc.):
log, invoke the registered error callback with the message, clear the
process handle and remove the marker file. -/
def onSpawnError (st : SupState) (errMsg : String) : SupState × List Effect :=
  let cbEffs := if st.errorCallbackSet then [Effect.deliverError errMsg] else []
  let (st1, rmEffs) := removePidFile { st with process := none }
  (st1, Effect.logError ("Python process error: " ++ errMsg) :: cbEffs ++ rmEffs)

/-- `PythonProcess.stop`, synchronous part: when a process is held, send
the quit command and schedule the 2-second timeout callback (the Bool
records whether the timer was scheduled). -/
def stopCall (encode : Command → String) (st : SupState) :
    SupState × List Effect × Bool :=
  match st.process with
  | some _ => (st, send encode st { command := "quit" }, true)
  | none => (st, [], false)

/-- The body of the `setTimeout` callback scheduled by `stop`: if the
process is still held after the 2-second grace period, SIGTERM it and
clear the handle; in every case remove the marker file. -/
def stopTimeout (st : SupState) : SupState × List Effect :=
  match st.process with
  | some _ =>
    let (st1, rmEffs) := removePidFile { st with process := none }
    (st1, Effect.killChild "SIGTERM" :: rmEffs)
  | none => removePidFile st

/-- `PythonProcess.isRunning`. -/
def isRunning (st : SupState) : Bool :=
  st.process.isSome

/-- Construction (which runs the orphan cleanup) immediately followed by
`start`: the trace a fresh Controller produces before its Engine runs. -/
def constructThenStart (pythonDir outputDir : String)
    (pidFileContent : Option String) (alive : Nat → Bool)
    (venvExists : Bool) (newPid : Nat) : SupState × List Effect :=
  let r1 := construct pythonDir outputDir pidFileContent alive
  let r2 := start r1.1 venvExists newPid
  (r2.1, r1.2 ++ r2.2)

/-- The whole `stop` interaction: the synchronous call, then — during the
grace period — either a clean Engine exit (the `exit` handler fires) or
nothing, then the timeout callback. -/
def stopScenario (encode : Command → String) (st : SupState)
    (exitsDuringGrace : Bool) : SupState × List Effect :=
  let r1 := stopCall encode st
  let r2 := if exitsDuringGrace then onExit r1.1 (some 0) none else (r1.1, [])
  let r3 := if r1.2.2 then stopTimeout r2.1 else (r2.1, [])
  (r3.1, r1.2.1 ++ r2.2 ++ r3.2)

/-! ### Coordinator (`OhhBrotherApp`, src/electron/main.ts)

Only the recording actions the claims are about are modelled; tray/menu
rendering, settings windows and summarization are UI glue with no
bearing on the claims. -/

/-- The coordinator state relevant to the Start/Stop actions
(`recordingDuration`, `currentSession` and the UI handles are mutated
only by the message handlers and menu rendering, which are not part of
any claim). -/
structure AppState where
  isRecording : Bool
  sup : SupState
deriving DecidableEq

/-- `OhhBrotherApp.startRecording`: no-op while already recording;
otherwise `await pythonProcess.start()` then send the start command. -/
def startRecording (encode : Command → String) (app : AppState)
    (venvExists : Bool) (newPid : Nat) : AppState × List Effect :=
  if app.isRecording then (app, [])
  else
    let (st1, e1) := start app.sup venvExists newPid
    let e2 := send encode st1 { command := "start" }
    ({ app with sup := st1 }, e1 ++ e2)

/-- `OhhBrotherApp.stopRecording`: no-op while not recording; otherwise
send the stop command. -/
def stopRecording (encode : Command → String) (app : AppState) :
    AppState × List Effect :=
  if app.isRecording then (app, send encode app.sup { command := "stop" })
  else (app, [])

/-- Whether a trace contains a `spawn` effect. -/
def containsSpawn (effs : List Effect) : Bool :=
  effs.any fun e => match e with
    | Effect.spawn _ _ => true
    | _ => false

/-- Whether a trace contains an invocation of the error callback. -/
def surfacesError (effs : List Effect) : Bool :=
  effs.any fun e => match e with
    | Effect.deliverError _ => true
    | _ => false

/-- Whether a trace contains a `console.error` diagnostic. -/
def containsErrorLog (effs : List Effect) : Bool :=
  effs.any fun e => match e with
    | Effect.logError _ => true
    | _ => false

/-! ### History lister (`HistoryManager`, src/electron/history.ts)

The transcripts directory is modelled as a list of `FileEntry` (name,
modification time, content). Dates are modelled as minutes on a single
timeline (an order-preserving rescaling of JavaScript epoch
milliseconds); `new Date(y, mo - 1, d, h, mi)` is embedded by the
proleptic-Gregorian normalization JavaScript specifies, including the
0–99 → 1900–1999 year mapping and month/day overflow. Locale display
formatting (`formatDisplayName`) is platform/locale dependent and not
modelled. -/

/-- A directory entry: file name, `stat.mtime` (model minutes) and file
content. -/
structure FileEntry where
  name : String
  mtime : Int
  content : String
deriving DecidableEq

/-- A transcript descriptor (`TranscriptFile` in history.ts, minus the
locale-formatted `displayName`). -/
structure TranscriptFile where
  path : String
  name : String
  date : Int
  duration : Option String
deriving DecidableEq

/-- Days since 1970-01-01 of a proleptic-Gregorian civil date with
month in 1..12; the day may lie outside 1..(month length), counting on
from the first of the month, exactly as JavaScript Date normalizes it. -/
def daysFromCivil (y m d : Int) : Int :=
  let y2 := if m ≤ 2 then y - 1 else y
  let era := Int.ediv y2 400
  let yoe := y2 - era * 400
  let mp := Int.emod (m + 9) 12
  let doy := Int.ediv (153 * mp + 2) 5 + d - 1
  let doe := yoe * 365 + Int.ediv yoe 4 - Int.ediv yoe 100 + doy
  era * 146097 + doe - 719468

/-- The time value (model minutes) of `new Date(y, mo - 1, d, h, mi)`:
years 0–99 map to 1900–1999, an out-of-range month overflows into the
year, and out-of-range day/hour/minute values overflow linearly. -/
def jsDateMinutes (y mo d h mi : Nat) : Int :=
  let yFull : Int := if y ≤ 99 then (y : Int) + 1900 else (y : Int)
  let m0 : Int := (mo : Int) - 1
  let yNorm := yFull + Int.ediv m0 12
  let mNorm := Int.emod m0 12 + 1
  daysFromCivil yNorm mNorm (d : Int) * 1440 + (h : Int) * 60 + (mi : Int)

/-- Numeric value of a decimal digit character. -/
def digitVal (c : Char) : Nat := c.toNat - 48

/-- Try the pattern `(\d\x7b4\x7d)-(\d\x7b2\x7d)-(\d\x7b2\x7d)_(\d\x7b2\x7d)-(\d\x7b2\x7d)\.md`
at the head of the character list, returning the five captured numbers. -/
def matchTsAt (l : List Char) : Option (Nat × Nat × Nat × Nat × Nat) :=
  match l with
  | y1 :: y2 :: y3 :: y4 :: '-' :: o1 :: o2 :: '-' :: d1 :: d2 :: '_' ::
      h1 :: h2 :: '-' :: n1 :: n2 :: '.' :: 'm' :: 'd' :: _ =>
    if y1.isDigit && y2.isDigit && y3.isDigit && y4.isDigit &&
        o1.isDigit && o2.isDigit && d1.isDigit && d2.isDigit &&
        h1.isDigit && h2.isDigit && n1.isDigit && n2.isDigit then
      some (1000 * digitVal y1 + 100 * digitVal y2 + 10 * digitVal y3 +
              digitVal y4,
            10 * digitVal o1 + digitVal o2,
            10 * digitVal d1 + digitVal d2,
            10 * digitVal h1 + digitVal h2,
            10 * digitVal n1 + digitVal n2)
    else none
  | _ => none

/-- Leftmost match of the embedded-timestamp pattern in a character
list (JavaScript `String.match` finds the leftmost occurrence). -/
def findTs : List Char → Option (Nat × Nat × Nat × Nat × Nat)
  | [] => none
  | c :: cs =>
    match matchTsAt (c :: cs) with
    | some r => some r
    | none => findTs cs

/-- `name.match(/(\d\x7b4\x7d)-(\d\x7b2\x7d)-(\d\x7b2\x7d)_(\d\x7b2\x7d)-(\d\x7b2\x7d)\.md/)`
followed by the `new Date(...)` construction: the parsed time value, or
`none` when the pattern does not occur in the name. -/
def parseFilenameDate (name : String) : Option Int :=
  (findTs name.toList).map fun r =>
    jsDateMinutes r.1 r.2.1 r.2.2.1 r.2.2.2.1 r.2.2.2.2

/-- `name.endsWith(".md")`. -/
def hasMdSuffix (s : String) : Bool :=
  match s.toList.reverse with
  | 'd' :: 'm' :: '.' :: _ => true
  | _ => false

/-- The `\s*(.+)` tail of the duration regex, with greedy matching and
backtracking: consume as much whitespace as possible, then require at
least one non-newline character; the capture is the maximal non-newline
run from that point. -/
def wsDotPlus : List Char → Option (List Char)
  | [] => none
  | c :: cs =>
    let dotHere : Option (List Char) :=
      if c = '\n' then none
      else some (c :: cs.takeWhile fun ch => ch ≠ '\n')
    if isJsWhitespace c then
      match wsDotPlus cs with
      | some cap => some cap
      | none => dotHere
    else dotHere

/-- Drop a literal character sequence from the head of a list, or fail. -/
def dropLit : List Char → List Char → Option (List Char)
  | [], rest => some rest
  | _ :: _, [] => none
  | c :: cs, d :: ds => if c = d then dropLit cs ds else none

/-- Try `Duration:\s*(.+)` at the head of the character list. -/
def matchDurationAt (l : List Char) : Option (List Char) :=
  match dropLit ("Duration:".toList) l with
  | some rest => wsDotPlus rest
  | none => none

/-- Leftmost match of `Duration:\s*(.+)` in a character list. -/
def findDuration : List Char → Option (List Char)
  | [] => none
  | c :: cs =>
    match matchDurationAt (c :: cs) with
    | some cap => some cap
    | none => findDuration cs

/-- `content.match(/Duration:\s*(.+)/)` followed by `.trim()` on the
capture: the duration string, or `none` when no match. -/
def extractDuration (content : String) : Option String :=
  (findDuration content.toList).map fun cap => String.mk (trimJs cap)

/-- Build one descriptor from a directory entry: path join, date parsed
from the filename with fallback to the modification time, duration
extracted from the content. -/
def mkTranscriptFile (dirPath : String) (e : FileEntry) : TranscriptFile :=
  { path := dirPath ++ "/" ++ e.name
    name := e.name
    date :=
      match parseFilenameDate e.name with
      | some v => v
      | none => e.mtime
    duration := extractDuration e.content }

/-- The descending-recency order used by the sort comparator
`(a, b) => b.date.getTime() - a.date.getTime()`. -/
def recencyGe (a b : TranscriptFile) : Prop := b.date ≤ a.date

instance : DecidableRel recencyGe := fun a b =>
  (inferInstance : Decidable (b.date ≤ a.date))

instance : IsTotal TranscriptFile recencyGe :=
  ⟨fun a b => le_total b.date a.date⟩

instance : IsTrans TranscriptFile recencyGe :=
  ⟨fun _ _ _ hab hbc => le_trans hbc hab⟩

/-- `HistoryManager.getRecentFiles(limit)` (default limit 20): keep the
`.md` entries, build descriptors, sort by date descending, take the
first `limit`. Only the ordering contract of `Array.prototype.sort`
with this comparator is modelled, not its tie order. -/
def getRecentFiles (dirPath : String) (dir : List FileEntry) (limit : Nat) :
    List TranscriptFile :=
  (List.insertionSort recencyGe
    ((dir.filter fun e => hasMdSuffix e.name).map
      (mkTranscriptFile dirPath))).take limit

/-- `HistoryManager.deleteOlderThan(days)`: the cutoff is now minus
`days` calendar days (`setDate` arithmetic, 1440 model minutes per day);
every listed file (`getRecentFiles(1000)`) whose date is strictly before
the cutoff — or every listed file when `days` is 0 — is unlinked, and
the count of deletions is returned. In this file-system model every
unlink succeeds. Returns the deleted descriptors and the count. -/
def deleteOlderThan (dirPath : String) (dir : List FileEntry) (now : Int)
    (days : Nat) : List TranscriptFile × Nat :=
  let cutoff := now - (days : Int) * 1440
  let files := getRecentFiles dirPath dir 1000
  let victims := files.filter fun f => days == 0 || decide (f.date < cutoff)
  (victims, victims.length)

/-! ### Concrete sample data for witnesses -/

/-- A sample Engine handle as `start` creates it. -/
def sampleHandle : ProcHandle :=
  { pid := 7, hasStdin := true, hasStdout := true, hasStderr := true }

/-- A sample supervisor state holding an Engine. -/
def sampleHeld : SupState :=
  { process := some sampleHandle
    pythonDir := "/py"
    outputDir := "/out"
    pidFile := "/out/.transcriber.pid"
    pidFileContent := some "7"
    messageCallbackSet := true
    errorCallbackSet := true }

/-- A sample supervisor state with no Engine held. -/
def sampleIdle : SupState :=
  { sampleHeld with process := none, pidFileContent := none }

/-- A sample stand-in for `JSON.stringify` on command objects. -/
def sampleEncode (c : Command) : String := c.command

/-- A sample stand-in for `JSON.parse` that accepts exactly one line. -/
def sampleDecode (line : String) : Option PythonMessage :=
  if line = "ready" then some { type := "ready", fields := [] } else none

/-- A sample transcripts directory listing. -/
def sampleDir : List FileEntry :=
  [{ name := "2024-05-06_07-08.md", mtime := 0, content := "Duration: 5m" },
   { name := "notes.txt", mtime := 3, content := "" },
   { name := "b.md", mtime := 99, content := "" }]

/-!
## Theorems

One theorem per claim of the specification, each followed by a witness
instantiating its hypotheses at concrete inputs where it has any.
-/

/-- C4: `start()` while an Engine is already held is a no-op (state
unchanged, no effects, hence no second spawn); on the coordinator side a
Start action while already recording and a Stop action while not
recording produce no effects (no command sent), so no duplicate
sessions are created. -/
theorem start_and_actions_idempotent (st : SupState) (h : ProcHandle)
    (app : AppState) (encode : Command → String) (venvExists : Bool)
    (newPid : Nat) (hheld : st.process = some h) :
    start st venvExists newPid = (st, []) ∧
    (app.isRecording = true →
      startRecording encode app venvExists newPid = (app, [])) ∧
    (app.isRecording = false → stopRecording encode app = (app, [])) := by
  refine ⟨?_, fun hrec => ?_, fun hrec => ?_⟩
  · simp [start, hheld]
  · simp [startRecording, hrec]
  · simp [stopRecording, hrec]

/-- Witness for C4 at concrete states. -/
theorem start_and_actions_idempotent_witness :
    start sampleHeld true 9 = (sampleHeld, []) ∧
    (({ isRecording := true, sup := sampleHeld } : AppState).isRecording = true →
      startRecording sampleEncode { isRecording := true, sup := sampleHeld }
        true 9 = ({ isRecording := true, sup := sampleHeld }, [])) ∧
    (({ isRecording := true, sup := sampleHeld } : AppState).isRecording = false →
      stopRecording sampleEncode { isRecording := true, sup := sampleHeld } =
        ({ isRecording := true, sup := sampleHeld }, [])) :=
  start_and_actions_idempotent sampleHeld sampleHandle
    { isRecording := true, sup := sampleHeld } sampleEncode true 9 rfl

/-- C5: `send(m)` writes exactly one line — the encoding of `m` followed
by a single newline — to the Engine stdin when a process with a stdin
pipe is held, and does nothing (no effects, no error) when no Engine is
running. -/
theorem send_writes_one_line (encode : Command → String) (st : SupState)
    (m : Command) :
    (∀ h, st.process = some h → h.hasStdin = true →
      send encode st m = [Effect.stdinWrite (encode m ++ "\n")]) ∧
    (st.process = none → send encode st m = []) := by
  constructor
  · intro h hheld hstdin
    simp [send, hheld, hstdin]
  · intro hnone
    simp [send, hnone]

/-- Witness for C5: a held Engine receives exactly the encoded line, an
idle supervisor writes nothing. -/
theorem send_writes_one_line_witness :
    send sampleEncode sampleHeld { command := "start" } =
      [Effect.stdinWrite (sampleEncode { command := "start" } ++ "\n")] ∧
    send sampleEncode sampleIdle { command := "start" } = [] :=
  ⟨(send_writes_one_line sampleEncode sampleHeld { command := "start" }).1
      sampleHandle rfl rfl,
   (send_writes_one_line sampleEncode sampleIdle { command := "start" }).2 rfl⟩

/-- C6: each Engine stdout line that parses as a structured message is
delivered to the registered message callback; a line that fails to parse
is not delivered as a message but surfaced as raw diagnostic output
(and the handler is a total function, so the reader does not crash). -/
theorem stdout_line_dispatch (decode : String → Option PythonMessage)
    (st : SupState) (line : String)
    (hcb : st.messageCallbackSet = true) :
    (∀ m, decode line = some m →
      handleStdoutLine decode st line = [Effect.deliverMessage m]) ∧
    (decode line = none →
      handleStdoutLine decode st line =
        [Effect.logInfo ("Python stdout: " ++ line)]) := by
  constructor
  · intro m hm
    simp [handleStdoutLine, hm, hcb]
  · intro hm
    simp [handleStdoutLine, hm]

/-- Witness for C6: a parseable line is delivered, a malformed line is
logged raw. -/
theorem stdout_line_dispatch_witness :
    handleStdoutLine sampleDecode sampleHeld "ready" =
      [Effect.deliverMessage { type := "ready", fields := [] }] ∧
    handleStdoutLine sampleDecode sampleHeld "oops not json" =
      [Effect.logInfo ("Python stdout: " ++ "oops not json")] :=
  ⟨(stdout_line_dispatch sampleDecode sampleHeld "ready" rfl).1
      { type := "ready", fields := [] } (by decide),
   (stdout_line_dispatch sampleDecode sampleHeld "oops not json" rfl).2
      (by decide)⟩

/-- C8: when `start` actually spawns, its first effect is the spawn of
the venv python under the Engine directory when that file exists and of
the global `python3` otherwise, with the script path and the output
directory passed as parameters. -/
theorem start_resolves_executable (st : SupState) (newPid : Nat)
    (hidle : st.process = none) :
    (start st true newPid).2.head? =
      some (Effect.spawn (st.pythonDir ++ "/venv/bin/python")
        [st.pythonDir ++ "/transcriber.py", "--output-dir", st.outputDir]) ∧
    (start st false newPid).2.head? =
      some (Effect.spawn "python3"
        [st.pythonDir ++ "/transcriber.py", "--output-dir", st.outputDir]) := by
  constructor <;>
  · simp only [start, hidle, writePidFile]
    split <;> rfl

/-- C1: when the supervisor is constructed while the marker file exists
and contains a process id, the combined construction-then-start trace
splits into a prefix containing the SIGTERM to that pid and the marker
unlink — and no spawn — followed by a part containing the Engine spawn:
the stale process is signalled and the marker removed before any Engine
is spawned. -/
theorem stale_process_killed_before_spawn (pythonDir outputDir s : String)
    (p newPid : Nat) (alive : Nat → Bool) (venvExists : Bool)
    (hparse : parsePid s = some p) :
    ∃ pre post,
      (constructThenStart pythonDir outputDir (some s) alive venvExists
        newPid).2 = pre ++ post ∧
      Effect.kill p "SIGTERM" ∈ pre ∧
      Effect.unlinkPidFile ∈ pre ∧
      containsSpawn pre = false ∧
      (∃ exe args, Effect.spawn exe args ∈ post) ∧
      (construct pythonDir outputDir (some s) alive).1.pidFileContent =
        none := by
  refine ⟨(construct pythonDir outputDir (some s) alive).2,
    (start (construct pythonDir outputDir (some s) alive).1 venvExists
      newPid).2, rfl, ?_, ?_, ?_, ?_, ?_⟩
  · cases halive : alive p <;>
      simp [construct, cleanupOrphanedProcess, hparse, halive]
  · cases halive : alive p <;>
      simp [construct, cleanupOrphanedProcess, hparse, halive]
  · cases halive : alive p <;>
      simp [construct, cleanupOrphanedProcess, hparse, halive, containsSpawn]
  · refine ⟨if venvExists then pythonDir ++ "/venv/bin/python" else "python3",
      [pythonDir ++ "/transcriber.py", "--output-dir", outputDir], ?_⟩
    rcases Nat.eq_zero_or_pos newPid with hnp | hnp
    · simp [construct, cleanupOrphanedProcess, hparse, start, writePidFile, hnp]
    · simp [construct, cleanupOrphanedProcess, hparse, start, writePidFile,
        Nat.pos_iff_ne_zero.mp hnp]
  · simp [construct, cleanupOrphanedProcess, hparse]

/-- Witness for C1: marker content "42", stale pid 42 already dead,
fresh pid 9. -/
theorem stale_process_killed_before_spawn_witness :
    parsePid "42" = some 42 ∧
    ∃ pre post,
      (constructThenStart "/py" "/out" (some "42") (fun _ => false) true
        9).2 = pre ++ post ∧
      Effect.kill 42 "SIGTERM" ∈ pre ∧
      Effect.unlinkPidFile ∈ pre ∧
      containsSpawn pre = false ∧
      (∃ exe args, Effect.spawn exe args ∈ post) ∧
      (construct "/py" "/out" (some "42") (fun _ => false)).1.pidFileContent =
        none :=
  ⟨by decide,
   stale_process_killed_before_spawn "/py" "/out" "42" 42 9 (fun _ => false)
     true (by decide)⟩

/-- C2: when the marker references a process id that is no longer alive
(the SIGTERM throws and is swallowed), construction still removes the
stale marker, the following `start()` spawns normally with no error
diagnostic, the new Engine handle carries the new pid, and the marker is
rewritten with exactly that pid. -/
theorem crash_recovery_start_succeeds (pythonDir outputDir s : String)
    (p newPid : Nat) (alive : Nat → Bool) (venvExists : Bool)
    (hparse : parsePid s = some p) (hdead : alive p = false)
    (hpid : newPid ≠ 0) :
    (construct pythonDir outputDir (some s) alive).1.pidFileContent = none ∧
    (∃ h, (constructThenStart pythonDir outputDir (some s) alive venvExists
        newPid).1.process = some h ∧ h.pid = newPid) ∧
    (constructThenStart pythonDir outputDir (some s) alive venvExists
      newPid).1.pidFileContent = some (toString newPid) ∧
    containsErrorLog
      (constructThenStart pythonDir outputDir (some s) alive venvExists
        newPid).2 = false := by
  refine ⟨?_, ?_, ?_, ?_⟩
  · simp [construct, cleanupOrphanedProcess, hparse]
  · refine ⟨⟨newPid, true, true, true⟩, ?_, rfl⟩
    simp [constructThenStart, construct, cleanupOrphanedProcess, hparse,
      start, writePidFile, hpid]
  · simp [constructThenStart, construct, cleanupOrphanedProcess, hparse,
      start, writePidFile, hpid]
  · simp [constructThenStart, construct, cleanupOrphanedProcess, hparse,
      hdead, start, writePidFile, hpid, containsErrorLog]

/-- Witness for C2: marker "42", pid 42 dead everywhere, new pid 9. -/
theorem crash_recovery_start_succeeds_witness :
    parsePid "42" = some 42 ∧
    (construct "/py" "/out" (some "42") (fun _ => false)).1.pidFileContent =
      none ∧
    (∃ h, (constructThenStart "/py" "/out" (some "42") (fun _ => false) true
        9).1.process = some h ∧ h.pid = 9) ∧
    (constructThenStart "/py" "/out" (some "42") (fun _ => false) true
      9).1.pidFileContent = some (toString 9) ∧
    containsErrorLog
      (constructThenStart "/py" "/out" (some "42") (fun _ => false) true
        9).2 = false :=
  ⟨by decide,
   crash_recovery_start_succeeds "/py" "/out" "42" 42 9 (fun _ => false) true
     (by decide) rfl (by decide)⟩

/-- C3: for a `stop()` issued while an Engine is held, the quit command
line is the first effect of the whole interaction; when the Engine has
not exited by the end of the 2-second grace period the timeout callback
SIGTERMs it; and in both outcomes (clean exit during grace, or forced
kill) the handle is cleared and the marker file is gone. -/
theorem stop_quit_grace_then_kill (encode : Command → String)
    (st : SupState) (h : ProcHandle) (exits : Bool)
    (hheld : st.process = some h) (hstdin : h.hasStdin = true) :
    ∃ rest,
      (stopScenario encode st exits).2 =
        Effect.stdinWrite (encode { command := "quit" } ++ "\n") :: rest ∧
      (exits = false → Effect.killChild "SIGTERM" ∈ rest) ∧
      (stopScenario encode st exits).1.process = none ∧
      (stopScenario encode st exits).1.pidFileContent = none := by
  cases exits <;> rcases hpf : st.pidFileContent with _ | c <;>
    simp [stopScenario, stopCall, send, hheld, hstdin, onExit, stopTimeout,
      removePidFile, hpf]

/-- Witness for C3: both the clean-exit and the forced-kill outcome at a
concrete held state. -/
theorem stop_quit_grace_then_kill_witness :
    (∃ rest,
      (stopScenario sampleEncode sampleHeld true).2 =
        Effect.stdinWrite (sampleEncode { command := "quit" } ++ "\n") ::
          rest ∧
      (true = false → Effect.killChild "SIGTERM" ∈ rest) ∧
      (stopScenario sampleEncode sampleHeld true).1.process = none ∧
      (stopScenario sampleEncode sampleHeld true).1.pidFileContent = none) ∧
    (∃ rest,
      (stopScenario sampleEncode sampleHeld false).2 =
        Effect.stdinWrite (sampleEncode { command := "quit" } ++ "\n") ::
          rest ∧
      (false = false → Effect.killChild "SIGTERM" ∈ rest) ∧
      (stopScenario sampleEncode sampleHeld false).1.process = none ∧
      (stopScenario sampleEncode sampleHeld false).1.pidFileContent =
        none) :=
  ⟨stop_quit_grace_then_kill sampleEncode sampleHeld sampleHandle true rfl
     rfl,
   stop_quit_grace_then_kill sampleEncode sampleHeld sampleHandle false rfl
     rfl⟩

/-- C7 counterexample: at a concrete state with a registered error
callback, the `exit` handler (unexpected Engine exit) invokes no error
callback at all — contradicting the claim that any unexpected exit is
surfaced to the coordinator via the error callback. -/
theorem exit_handler_silent_counterexample :
    sampleHeld.errorCallbackSet = true ∧
    surfacesError (onExit sampleHeld (some 1) none).2 = false := by
  constructor
  · rfl
  · decide

/-- C7 (amended): on an unexpected Engine exit the supervisor clears the
handle and removes the marker file but invokes no error callback (the
exit is only logged to the console); on a spawn error it clears the
handle, removes the marker file and surfaces the message through the
registered error callback; neither handler spawns a new Engine. -/
theorem exit_and_error_handlers_cleanup (st : SupState) (errMsg : String)
    (code : Option Int) (sig : Option String)
    (hcb : st.errorCallbackSet = true) :
    ((onExit st code sig).1.process = none ∧
     (onExit st code sig).1.pidFileContent = none ∧
     surfacesError (onExit st code sig).2 = false ∧
     containsSpawn (onExit st code sig).2 = false) ∧
    ((onSpawnError st errMsg).1.process = none ∧
     (onSpawnError st errMsg).1.pidFileContent = none ∧
     Effect.deliverError errMsg ∈ (onSpawnError st errMsg).2 ∧
     containsSpawn (onSpawnError st errMsg).2 = false) := by
  rcases hpf : st.pidFileContent with _ | c <;>
    simp [onExit, onSpawnError, removePidFile, hpf, hcb, surfacesError,
      containsSpawn]

/-- Witness for C7 at a concrete state with both callbacks registered. -/
theorem exit_and_error_handlers_cleanup_witness :
    ((onExit sampleHeld (some 1) none).1.process = none ∧
     (onExit sampleHeld (some 1) none).1.pidFileContent = none ∧
     surfacesError (onExit sampleHeld (some 1) none).2 = false ∧
     containsSpawn (onExit sampleHeld (some 1) none).2 = false) ∧
    ((onSpawnError sampleHeld "boom").1.process = none ∧
     (onSpawnError sampleHeld "boom").1.pidFileContent = none ∧
     Effect.deliverError "boom" ∈ (onSpawnError sampleHeld "boom").2 ∧
     containsSpawn (onSpawnError sampleHeld "boom").2 = false) :=
  exit_and_error_handlers_cleanup sampleHeld "boom" (some 1) none rfl

/-- Witness for C8 at a concrete idle state. -/
theorem start_resolves_executable_witness :
    (start sampleIdle true 9).2.head? =
      some (Effect.spawn (sampleIdle.pythonDir ++ "/venv/bin/python")
        [sampleIdle.pythonDir ++ "/transcriber.py", "--output-dir",
          sampleIdle.outputDir]) ∧
    (start sampleIdle false 9).2.head? =
      some (Effect.spawn "python3"
        [sampleIdle.pythonDir ++ "/transcriber.py", "--output-dir",
          sampleIdle.outputDir]) :=
  start_resolves_executable sampleIdle 9 rfl

/-- The sample descriptor built from the timestamp-named sample entry. -/
def sampleTranscript : TranscriptFile :=
  mkTranscriptFile "/t"
    { name := "2024-05-06_07-08.md", mtime := 0, content := "Duration: 5m" }

/-- C9: the history lister returns at most `limit` descriptors, ordered
by recency (date descending), and every descriptor comes from a `.md`
directory entry, with its date parsed from the filename when the
embedded-timestamp pattern matches and the file modification time
otherwise, and with the optional duration extracted from the file
content; moreover when all `.md` entries fit within `limit`, each of
them is listed. -/
theorem getRecentFiles_spec (dirPath : String) (dir : List FileEntry)
    (limit : Nat) :
    (getRecentFiles dirPath dir limit).length ≤ limit ∧
    List.Sorted recencyGe (getRecentFiles dirPath dir limit) ∧
    (∀ f ∈ getRecentFiles dirPath dir limit, ∃ e ∈ dir,
      hasMdSuffix e.name = true ∧
      f.name = e.name ∧
      f.date = (match parseFilenameDate e.name with
        | some v => v
        | none => e.mtime) ∧
      f.duration = extractDuration e.content) ∧
    ((dir.filter fun e => hasMdSuffix e.name).length ≤ limit →
      ∀ e ∈ dir, hasMdSuffix e.name = true →
        mkTranscriptFile dirPath e ∈ getRecentFiles dirPath dir limit) := by
  refine ⟨?_, ?_, ?_, ?_⟩
  · simp only [getRecentFiles, List.length_take]
    exact min_le_left _ _
  · exact List.Pairwise.sublist (List.take_sublist _ _)
      (List.sorted_insertionSort recencyGe _)
  · intro f hf
    have hf1 : f ∈ List.insertionSort recencyGe
        ((dir.filter fun e => hasMdSuffix e.name).map
          (mkTranscriptFile dirPath)) :=
      (List.take_sublist _ _).subset hf
    have hf2 : f ∈ (dir.filter fun e => hasMdSuffix e.name).map
        (mkTranscriptFile dirPath) :=
      (List.perm_insertionSort recencyGe _).mem_iff.mp hf1
    rcases List.mem_map.mp hf2 with ⟨e, he, hfe⟩
    rcases List.mem_filter.mp he with ⟨hedir, hmd⟩
    subst hfe
    exact ⟨e, hedir, hmd, rfl, rfl, rfl⟩
  · intro hlen e hedir hmd
    have hbase : mkTranscriptFile dirPath e ∈
        (dir.filter fun x => hasMdSuffix x.name).map
          (mkTranscriptFile dirPath) :=
      List.mem_map.mpr ⟨e, List.mem_filter.mpr ⟨hedir, hmd⟩, rfl⟩
    have hsorted : mkTranscriptFile dirPath e ∈ List.insertionSort recencyGe
        ((dir.filter fun x => hasMdSuffix x.name).map
          (mkTranscriptFile dirPath)) :=
      (List.perm_insertionSort recencyGe _).mem_iff.mpr hbase
    have hlen2 : (List.insertionSort recencyGe
        ((dir.filter fun x => hasMdSuffix x.name).map
          (mkTranscriptFile dirPath))).length ≤ limit := by
      rw [(List.perm_insertionSort recencyGe _).length_eq, List.length_map]
      exact hlen
    rw [getRecentFiles, List.take_of_length_le hlen2]
    exact hsorted

/-- Witness for C9: the timestamp-named sample file is listed and its
descriptor traces back to its directory entry. -/
theorem getRecentFiles_spec_witness :
    sampleTranscript ∈ getRecentFiles "/t" sampleDir 20 ∧
    ∃ e ∈ sampleDir, hasMdSuffix e.name = true ∧
      sampleTranscript.name = e.name ∧
      sampleTranscript.date = (match parseFilenameDate e.name with
        | some v => v
        | none => e.mtime) ∧
      sampleTranscript.duration = extractDuration e.content :=
  ⟨by decide,
   (getRecentFiles_spec "/t" sampleDir 20).2.2.1 sampleTranscript (by decide)⟩

/-- C10: `deleteOlderThan(days)` returns the number of files it deleted,
and the deleted files are exactly the listed ones whose date is strictly
before the cutoff (`now` minus `days` days) — except for `days = 0`,
where every listed file is deleted regardless of its age. -/
theorem deleteOlderThan_spec (dirPath : String) (dir : List FileEntry)
    (now : Int) (days : Nat) :
    (deleteOlderThan dirPath dir now days).2 =
      (deleteOlderThan dirPath dir now days).1.length ∧
    (days ≠ 0 →
      (deleteOlderThan dirPath dir now days).1 =
        (getRecentFiles dirPath dir 1000).filter
          fun f => decide (f.date < now - (days : Int) * 1440)) ∧
    (days = 0 →
      (deleteOlderThan dirPath dir now days).1 =
        getRecentFiles dirPath dir 1000) := by
  refine ⟨rfl, fun hd => ?_, fun hd => ?_⟩
  · have hb : (days == 0) = false := by simpa using hd
    simp [deleteOlderThan, hb]
  · subst hd
    simp [deleteOlderThan]

/-- Witness for C10: a nonzero retention keeps recent files, retention 0
deletes every listed file. -/
theorem deleteOlderThan_spec_witness :
    (7 : Nat) ≠ 0 ∧
    (deleteOlderThan "/t" sampleDir 100000000 7).1 =
      (getRecentFiles "/t" sampleDir 1000).filter
        (fun f => decide (f.date < 100000000 - ((7 : Nat) : Int) * 1440)) ∧
    (deleteOlderThan "/t" sampleDir 100000000 0).1 =
      getRecentFiles "/t" sampleDir 1000 :=
  ⟨by decide,
   (deleteOlderThan_spec "/t" sampleDir 100000000 7).2.1 (by decide),
   (deleteOlderThan_spec "/t" sampleDir 100000000 0).2.2 rfl⟩

end OhhBrother
